import Mathlib

/-!
Shallow embedding of the MedTransNet training/evaluation core
(src/medical_hgt/train.py and src/medical_hgt/training.py).

Tensors relevant to the claims are 0- or 1-dimensional, so they are
modelled by `T1` (a scalar or a list of rationals).  Real-valued data
(predictions, labels, confidences, losses) is modelled over `ℚ`; the
claims under study are structural, not about floating-point rounding.
Fallible tensor operations (indexing a 0-dim tensor, concatenating a
0-dim tensor) return `Option`, mirroring the PyTorch exceptions.
-/

/-- A PyTorch tensor of dimension 0 (scalar) or 1 (vector). -/
inductive T1 where
  | scalar (x : ℚ)
  | vec (xs : List ℚ)
deriving Repr, DecidableEq

/-- Model of `t.squeeze()` on a 1-dim tensor: a size-1 dimension is removed,
producing a 0-dim scalar; any other length is left as is
(train.py lines 88, 94, 247, 254). -/
def squeeze (xs : List ℚ) : T1 :=
  if xs.length = 1 then T1.scalar (xs.headD 0) else T1.vec xs

/-- Model of `if t.dim() == 0: t = t.view(1)` followed by reading the tensor as a
1-dim sequence (train.py lines 89-90, 103-104, 249-250, 263-264). -/
def view1OfScalar : T1 → List ℚ
  | T1.scalar x => [x]
  | T1.vec xs => xs

/-- Advanced indexing `t[idx]` with a 1-dim index tensor.  PyTorch raises
an IndexError on a 0-dim tensor and on an out-of-range index, modelled
by `none` (train.py lines 100-101, 260-261). -/
def indexSelect : T1 → List ℕ → Option (List ℚ)
  | T1.scalar _, _ => none
  | T1.vec xs, idx => idx.mapM fun i => xs[i]?

/-- Constant `num_neg_samples = 2` (train.py lines 97, 257). -/
def num_neg_samples : ℕ := 2

/-- Model of `torch.randperm(neg_indices.size(1))[:num_neg_samples * pos_y.size(0)]`
(train.py lines 98, 258).  The permutation drawn by `randperm` is passed
in explicitly; any theorem quantifies over all permutations of
`List.range N_neg`. -/
def neg_sample_indices (pos_label_raw : List ℚ) (perm : List ℕ) : List ℕ :=
  perm.take (num_neg_samples * (view1OfScalar (squeeze pos_label_raw)).length)

/-- The negative sampler of train.py lines 88-104 (identically lines
247-264 of `evaluate`): squeeze-and-reshape the positive labels, draw a
truncated random permutation, index the negative predictions and the
squeezed negative labels with it, and reshape the sampled labels if they
are 0-dim (they never are: fancy indexing with a 1-dim index yields a
1-dim result). -/
def negSample (neg_pred neg_label_raw pos_label_raw : List ℚ) (perm : List ℕ) :
    Option (List ℚ × List ℚ) :=
  let idx := neg_sample_indices pos_label_raw perm
  match indexSelect (T1.vec neg_pred) idx, indexSelect (squeeze neg_label_raw) idx with
  | some np, some ny => some (np, view1OfScalar (T1.vec ny))
  | _, _ => none

/-- Reading a tensor as 1-dim data; a 0-dim tensor is rejected. -/
def fromT1 : T1 → Option (List ℚ)
  | T1.scalar _ => none
  | T1.vec xs => some xs

/-- Model of `torch.cat(ts, dim=0)`: fails on a 0-dim entry, concatenates 1-dim
entries (train.py lines 128-131, 341-344). -/
def catT1 (ts : List T1) : Option (List ℚ) :=
  (ts.mapM fromT1).map List.flatten

/-- Assignment `llm_relevancy_loss_weight = 1 - link_prediction_loss_weight`
(train.py line 66). -/
def llm_relevancy_loss_weight (link_prediction_loss_weight : ℚ) : ℚ :=
  1 - link_prediction_loss_weight

/-- Default `link_prediction_loss_weight=0.3` (train.py line 26). -/
def default_link_prediction_loss_weight : ℚ := 3/10

/-- Model of `total_loss = link_prediction_loss_weight * link_prediction_loss +
llm_relevancy_loss_weight * llm_relevancy_loss` (train.py line 111). -/
def total_loss (w link_prediction_loss llm_relevancy_loss : ℚ) : ℚ :=
  w * link_prediction_loss + llm_relevancy_loss_weight w * llm_relevancy_loss

/-- training.py lines 72-88: frozen dataclass EpochResult. -/
structure EpochResult where
  epoch_num : ℕ
  train_start_time : ℤ
  train_end_time : ℤ
  mean_train_loss : ℚ
  train_acc : ℚ
  val_acc : ℚ
deriving Repr, DecidableEq

/-- training.py lines 91-106: frozen dataclass ModelResult.  The
`state_dict` snapshot is stored as a value (list of parameter values). -/
structure ModelResult where
  start_time : ℤ
  end_time : ℤ
  epoch_results : List EpochResult
  state_dict : List ℤ
  test_acc : ℚ
deriving Repr, DecidableEq

/-- training.py lines 108-116. -/
def ModelResult.get_total_train_time_sec (m : ModelResult) : ℤ :=
  (m.epoch_results.map fun er => er.train_end_time - er.train_start_time).sum

/-- training.py lines 118-120; Python `//` is floor division. -/
def ModelResult.get_total_train_time_min (m : ModelResult) : ℤ :=
  Int.fdiv m.get_total_train_time_sec 60

/-- The squeeze-then-reshape pipeline applied to the positive labels is
the identity on the underlying 1-dim data. -/
theorem view1OfScalar_squeeze (xs : List ℚ) : view1OfScalar (squeeze xs) = xs := by
  by_cases h : xs.length = 1
  · obtain ⟨a, rfl⟩ := List.length_eq_one.mp h
    simp [squeeze, view1OfScalar]
  · simp [squeeze, h, view1OfScalar]

/-- Fancy indexing of a genuinely 1-dim tensor with in-range indices
returns the entries at those indices. -/
theorem indexSelect_vec_eq (xs : List ℚ) :
    ∀ idx : List ℕ, (∀ i ∈ idx, i < xs.length) →
      indexSelect (T1.vec xs) idx = some (idx.map fun i => xs.getD i 0)
  | [], _ => rfl
  | i :: rest, h => by
    have hi : i < xs.length := h i (List.mem_cons_self i rest)
    have hr := indexSelect_vec_eq xs rest (fun j hj => h j (List.mem_cons_of_mem _ hj))
    simp only [indexSelect] at hr ⊢
    rw [List.mapM_cons, hr, List.getElem?_eq_getElem hi]
    simp [List.getD_eq_getElem?_getD, List.getElem?_eq_getElem hi]

/-- C2: the total loss of the training loop is exactly the convex combination
`w * link_prediction_loss + (1-w) * llm_relevancy_loss`; the two weights
sum to 1 for any configured `w`, and for the default weight 0.3 the
total is `0.3*L1 + 0.7*L2` with no missing terms. -/
theorem total_loss_convex_combination (w L1 L2 : ℚ) :
    w + llm_relevancy_loss_weight w = 1 ∧
    total_loss w L1 L2 = w * L1 + (1 - w) * L2 ∧
    total_loss default_link_prediction_loss_weight L1 L2 = 3/10 * L1 + 7/10 * L2 := by
  refine ⟨?_, rfl, ?_⟩
  · simp only [llm_relevancy_loss_weight]
    ring
  · simp only [total_loss, llm_relevancy_loss_weight,
      default_link_prediction_loss_weight]
    ring

/-- C7: `get_total_train_time_min` sums `train_end_time - train_start_time`
over the epoch results and floor-divides by 60; for two epochs with
(start=100, end=160) and (start=200, end=245) it returns `(60+45)//60 = 1`. -/
theorem total_train_time_min_correct :
    (∀ m : ModelResult,
      m.get_total_train_time_min =
        Int.fdiv ((m.epoch_results.map fun er =>
          er.train_end_time - er.train_start_time).sum) 60) ∧
    (ModelResult.mk 0 0
      [EpochResult.mk 1 100 160 0 0 0, EpochResult.mk 2 200 245 0 0 0]
      [] 0).get_total_train_time_min = 1 := by
  constructor
  · intro m
    rfl
  · decide

/-- C1 counterexample: in a batch with exactly one negative edge
(`N_neg = 1`, the identity permutation `[0]` being the only permutation
of `range 1`) and one positive example, `edge_label.squeeze()` produces a
0-dim tensor and the subsequent fancy indexing raises, so the sampler
returns no predictions/labels at all — the claimed property that the
returned negative predictions and labels are exactly those at the
sampled positions fails. -/
theorem negative_sampler_single_negative_fails :
    ([0] : List ℕ).Perm (List.range 1) ∧
    negSample [5] [1] [1] [0] = none := by
  exact ⟨by decide, rfl⟩

/-- C1 (amended): for every batch whose negative edge set does not consist
of exactly one edge, the sampler draws `min(2*P, N_neg)` pairwise-distinct
indices (a uniform random permutation of `range N_neg` truncated to length
`2*P`), and returns exactly the negative predictions and labels at those
positions. -/
theorem negative_sampler_draws_min_two_p
    (neg_pred neg_label pos_label : List ℚ) (perm : List ℕ)
    (hlen : neg_label.length = neg_pred.length)
    (hperm : perm.Perm (List.range neg_pred.length))
    (hne : neg_pred.length ≠ 1) :
    (neg_sample_indices pos_label perm).length =
        min (2 * pos_label.length) neg_pred.length ∧
    (neg_sample_indices pos_label perm).Nodup ∧
    negSample neg_pred neg_label pos_label perm =
      some ((neg_sample_indices pos_label perm).map (fun i => neg_pred.getD i 0),
            (neg_sample_indices pos_label perm).map (fun i => neg_label.getD i 0)) := by
  have hplen : perm.length = neg_pred.length := by
    simpa using hperm.length_eq
  have hidx : neg_sample_indices pos_label perm = perm.take (2 * pos_label.length) := by
    simp [neg_sample_indices, view1OfScalar_squeeze, num_neg_samples]
  have hmem : ∀ i ∈ neg_sample_indices pos_label perm, i < neg_pred.length := by
    intro i hi
    rw [hidx] at hi
    have : i ∈ perm := List.mem_of_mem_take hi
    have : i ∈ List.range neg_pred.length := hperm.mem_iff.mp this
    exact List.mem_range.mp this
  refine ⟨?_, ?_, ?_⟩
  · rw [hidx, List.length_take, hplen]
  · have hnd : perm.Nodup := hperm.nodup_iff.mpr (List.nodup_range _)
    rw [hidx]
    exact (List.take_sublist _ _).nodup hnd
  · have hsq : squeeze neg_label = T1.vec neg_label := by
      have : neg_label.length ≠ 1 := by rw [hlen]; exact hne
      simp [squeeze, this]
    have h1 := indexSelect_vec_eq neg_pred (neg_sample_indices pos_label perm) hmem
    have h2 := indexSelect_vec_eq neg_label (neg_sample_indices pos_label perm)
      (fun i hi => hlen ▸ hmem i hi)
    simp [negSample, hsq, h1, h2, view1OfScalar]

/-- Witness for C1 (amended), at a batch with three negative edges, one
positive example, and the permutation `[2,0,1]` of `range 3`. -/
theorem negative_sampler_draws_min_two_p_witness :
    (neg_sample_indices [(1:ℚ)] [2,0,1]).length = min (2 * [(1:ℚ)].length) [(5:ℚ),6,7].length ∧
    (neg_sample_indices [(1:ℚ)] [2,0,1]).Nodup ∧
    negSample [5,6,7] [0,9,8] [1] [2,0,1] =
      some ((neg_sample_indices [(1:ℚ)] [2,0,1]).map (fun i => [(5:ℚ),6,7].getD i 0),
            (neg_sample_indices [(1:ℚ)] [2,0,1]).map (fun i => [(0:ℚ),9,8].getD i 0)) :=
  negative_sampler_draws_min_two_p [5,6,7] [0,9,8] [1] [2,0,1]
    (by decide) (by decide) (by decide)

/-- Lemma: `torch.cat` succeeds on any sequence of 1-dim tensors and yields
their concatenation. -/
theorem catT1_vecs : ∀ ts : List (List ℚ), catT1 (ts.map T1.vec) = some ts.flatten
  | [] => rfl
  | t :: rest => by
    have ih := catT1_vecs rest
    unfold catT1 at ih ⊢
    rw [List.map_cons, List.mapM_cons]
    cases h : List.mapM fromT1 (rest.map T1.vec) with
    | none => rw [h] at ih; simp at ih
    | some l =>
      rw [h] at ih
      simp only [Option.map_some'] at ih
      simp only [Option.some.injEq] at ih
      simp [fromT1, ih]

/-- C4: a scalar positive label tensor is reshaped to the length-1
sequence holding its value before use (and in general the reshape
pipeline is the identity on the 1-dim label data); concatenating an
unreshaped 0-dim tensor would fail, while every tensor the loops append
is 1-dim, so the cross-batch `torch.cat` of the accumulated label
tensors succeeds for every batch, including single-example batches.
Identical code appears in `train` (lines 88-104, 128-131) and `evaluate`
(lines 247-264, 341-344). -/
theorem scalar_labels_reshaped_concat_total :
    (∀ pos_label : List ℚ, view1OfScalar (squeeze pos_label) = pos_label) ∧
    (∀ x : ℚ, squeeze [x] = T1.scalar x ∧ view1OfScalar (squeeze [x]) = [x]) ∧
    (∀ x : ℚ, catT1 [squeeze [x]] = none) ∧
    (∀ neg_pred neg_label pos_label perm np ny,
      negSample neg_pred neg_label pos_label perm = some (np, ny) →
      catT1 [T1.vec np, T1.vec ny] = some (np ++ ny)) ∧
    (∀ batches : List (List ℚ),
      catT1 (batches.map fun b => T1.vec (view1OfScalar (squeeze b))) =
        some batches.flatten) := by
  refine ⟨view1OfScalar_squeeze, ?_, ?_, ?_, ?_⟩
  · intro x; exact ⟨rfl, rfl⟩
  · intro x; rfl
  · intro neg_pred neg_label pos_label perm np ny _
    simpa using catT1_vecs [np, ny]
  · intro batches
    have h := catT1_vecs batches
    have heq : (batches.map fun b => T1.vec (view1OfScalar (squeeze b))) =
        batches.map T1.vec := by
      simp [view1OfScalar_squeeze]
    rw [heq, h]

/-- Witness for C4, applying the sampled-negative-labels clause at a
concrete successful sampling. -/
theorem scalar_labels_reshaped_concat_total_witness :
    catT1 [T1.vec [(7:ℚ),5], T1.vec [(8:ℚ),0]] = some ([(7:ℚ),5] ++ [(8:ℚ),0]) :=
  scalar_labels_reshaped_concat_total.2.2.2.1 [5,6,7] [0,9,8] [1] [2,0,1]
    [(7:ℚ),5] [(8:ℚ),0] (by decide)

/-- Precomputed LLM feedback record per question (spec §3; the fields of
`llm_feedbacks_dict[question_uid]` read at train.py lines 289, 314-315,
319-322).  `is_correct_without_context` is a 0/1 value, carried as ℚ so
it can be averaged. -/
structure LLMFeedback where
  cop_confidence_without_context : ℚ
  is_correct_without_context : ℚ
deriving Repr, DecidableEq

/-- The dict returned by `llm.get_confidence` (train.py lines 306-313);
`confidence == -1` signals a malformed response. -/
structure LLMResponse where
  confidence : ℚ
  cop_confidence : ℚ
  accuracy : ℚ
deriving Repr, DecidableEq

/-- The low-confidence threshold 0.26 (train.py line 289). -/
def confidence_threshold : ℚ := 26/100

/-- Constant k of `find_most_relevant_nodes(..., k=2)` (train.py line 291). -/
def relevancy_top_k : ℕ := 2

/-- What one iteration of the per-question loop (train.py lines 280-322)
does: whether the relevancy context builder plus a fresh LLM inference
call ran (and with which top-k), whether the malformed-response
diagnostic was printed, and the entries appended to the four per-batch
metric lists. -/
structure QuestionStep where
  llm_called : Bool
  top_k_used : Option ℕ
  diagnostic : Bool
  vanilla_confidence : List ℚ
  vanilla_accuracy : List ℚ
  llm_aided_confidence : List ℚ
  llm_aided_accuracy : List ℚ
deriving Repr, DecidableEq

/-- One iteration of the per-question loop (train.py lines 280-322):
skip when the uid has no precomputed feedback; below the threshold,
build context (k=2) and call the LLM — dropping the question when the
response is malformed — otherwise reuse the vanilla feedback for both
data points. -/
def processQuestion (fb : Option LLMFeedback) (resp : LLMResponse) : QuestionStep :=
  match fb with
  | none => ⟨false, none, false, [], [], [], []⟩
  | some f =>
    if f.cop_confidence_without_context < confidence_threshold then
      if resp.confidence = -1 then
        ⟨true, some relevancy_top_k, true, [], [], [], []⟩
      else
        ⟨true, some relevancy_top_k, false,
         [f.cop_confidence_without_context], [f.is_correct_without_context],
         [resp.cop_confidence], [resp.accuracy]⟩
    else
      ⟨false, none, false,
       [f.cop_confidence_without_context], [f.is_correct_without_context],
       [f.cop_confidence_without_context], [f.is_correct_without_context]⟩

/-- The four per-batch accumulation lists of train.py line 275, after the
per-question loop over the question uids of the batch has run. -/
structure BatchLists where
  vanilla_confidence_list : List ℚ
  vanilla_accuracy_list : List ℚ
  llm_aided_confidence_list : List ℚ
  llm_aided_accuracy_list : List ℚ
deriving Repr, DecidableEq

/-- Accumulation of the per-question loop over a batch (train.py lines
275-322).  `fb` is `llm_feedbacks_dict` (None for a missing uid), `resp`
gives the LLM response to the context-augmented prompt for each uid. -/
def batchLists (fb : ℕ → Option LLMFeedback) (resp : ℕ → LLMResponse)
    (uids : List ℕ) : BatchLists where
  vanilla_confidence_list :=
    (uids.map fun u => (processQuestion (fb u) (resp u)).vanilla_confidence).flatten
  vanilla_accuracy_list :=
    (uids.map fun u => (processQuestion (fb u) (resp u)).vanilla_accuracy).flatten
  llm_aided_confidence_list :=
    (uids.map fun u => (processQuestion (fb u) (resp u)).llm_aided_confidence).flatten
  llm_aided_accuracy_list :=
    (uids.map fun u => (processQuestion (fb u) (resp u)).llm_aided_accuracy).flatten

/-- Model of `sum(xs) / max(1, len(xs))` (train.py lines 325-328, 350-351). -/
def safeAverage (xs : List ℚ) : ℚ := xs.sum / ((max 1 xs.length : ℕ) : ℚ)

/-- The running cross-batch lists of train.py lines 227-230. -/
structure RunningLists where
  average_llm_aided_confidence_list : List ℚ
  average_llm_aided_accuracy_list : List ℚ
  average_llm_vanilla_confidence_list : List ℚ
  average_llm_vanilla_accuracy_list : List ℚ
deriving Repr, DecidableEq

/-- Batch-average computation and the conditional append of train.py
lines 324-334: the four batch averages are appended to the running lists
only when the average context confidence of the batch is positive. -/
def stepBatch (fb : ℕ → Option LLMFeedback) (resp : ℕ → LLMResponse)
    (acc : RunningLists) (uids : List ℕ) : RunningLists :=
  let L := batchLists fb resp uids
  let batch_average_vanilla_confidence := safeAverage L.vanilla_confidence_list
  let batch_average_vanilla_accuracy := safeAverage L.vanilla_accuracy_list
  let batch_average_context_confidence := safeAverage L.llm_aided_confidence_list
  let batch_average_context_accuracy := safeAverage L.llm_aided_accuracy_list
  if batch_average_context_confidence > 0 then
    ⟨acc.average_llm_aided_confidence_list ++ [batch_average_context_confidence],
     acc.average_llm_aided_accuracy_list ++ [batch_average_context_accuracy],
     acc.average_llm_vanilla_confidence_list ++ [batch_average_vanilla_confidence],
     acc.average_llm_vanilla_accuracy_list ++ [batch_average_vanilla_accuracy]⟩
  else acc

/-- The returned dict `llm_results` (train.py lines 349-352), as the pair
(vanilla_accuracy, context_accuracy). -/
def llmResults (r : RunningLists) : ℚ × ℚ :=
  (safeAverage r.average_llm_vanilla_accuracy_list,
   safeAverage r.average_llm_aided_accuracy_list)

/-- The LLM-metrics component of `evaluate` (train.py lines 227-352) over
the uid lists of the processed batches. -/
def evaluateLLM (fb : ℕ → Option LLMFeedback) (resp : ℕ → LLMResponse)
    (batches : List (List ℕ)) : ℚ × ℚ :=
  llmResults (batches.foldl (stepBatch fb resp) ⟨[], [], [], []⟩)

/-- One full batch of the evaluate loop: the link-prediction part
(negative sampling, train.py lines 247-269) next to the LLM-metrics part
(lines 275-322); the two are computed from disjoint inputs. -/
def evalBatch (neg_pred neg_label pos_label : List ℚ) (perm : List ℕ)
    (fb : ℕ → Option LLMFeedback) (resp : ℕ → LLMResponse) (uids : List ℕ) :
    Option (List ℚ × List ℚ) × BatchLists :=
  (negSample neg_pred neg_label pos_label perm, batchLists fb resp uids)

/-- C3: for a question with precomputed feedback, the relevancy context
builder (top-k=2 retrieval plus a fresh LLM inference call) runs if and
only if the precomputed vanilla confidence is strictly below 0.26; at or
above the threshold no LLM call is made and the per-question context
accuracy/confidence data points are identical to the precomputed vanilla
values (train.py lines 288-322). -/
theorem context_builder_iff_low_confidence (f : LLMFeedback) (resp : LLMResponse) :
    ((processQuestion (some f) resp).llm_called = true ↔
        f.cop_confidence_without_context < confidence_threshold) ∧
    ((processQuestion (some f) resp).top_k_used =
      if f.cop_confidence_without_context < confidence_threshold
      then some relevancy_top_k else none) ∧
    (confidence_threshold ≤ f.cop_confidence_without_context →
      processQuestion (some f) resp =
        ⟨false, none, false,
         [f.cop_confidence_without_context], [f.is_correct_without_context],
         [f.cop_confidence_without_context], [f.is_correct_without_context]⟩) := by
  by_cases h : f.cop_confidence_without_context < confidence_threshold
  · by_cases hm : resp.confidence = -1 <;>
      simp [processQuestion, h, hm, not_le.mpr h]
  · simp [processQuestion, h, not_lt.mp h]

/-- Witness for C3 at confidence 0.79 ≥ 0.26: no LLM call, vanilla
feedback reused for both data points. -/
theorem context_builder_iff_low_confidence_witness :
    confidence_threshold ≤ (79:ℚ)/100 ∧
    processQuestion (some (LLMFeedback.mk (79/100) 1)) (LLMResponse.mk 0 0 0) =
      ⟨false, none, false, [79/100], [1], [79/100], [1]⟩ :=
  ⟨by norm_num [confidence_threshold],
   (context_builder_iff_low_confidence (LLMFeedback.mk (79/100) 1)
      (LLMResponse.mk 0 0 0)).2.2 (by norm_num [confidence_threshold])⟩

/-- C5: a malformed LLM response (confidence == -1) for a low-confidence
question contributes zero entries to all of the LLM metric
lists, the diagnostic notice is emitted, iteration continues (the
per-question step is total), the link-prediction side of the batch is
unaffected by the LLM responses, and a batch containing only that
question leaves the running cross-batch lists unchanged (its batch
averages fall back to 0) (train.py lines 305-315, 324-334). -/
theorem malformed_response_dropped (f : LLMFeedback) (u : ℕ)
    (fb : ℕ → Option LLMFeedback) (resp : ℕ → LLMResponse) (acc : RunningLists)
    (hfb : fb u = some f)
    (hconf : f.cop_confidence_without_context < confidence_threshold)
    (hmal : (resp u).confidence = -1) :
    batchLists fb resp [u] = ⟨[], [], [], []⟩ ∧
    (processQuestion (fb u) (resp u)).diagnostic = true ∧
    (processQuestion (fb u) (resp u)).llm_called = true ∧
    safeAverage (batchLists fb resp [u]).llm_aided_confidence_list = 0 ∧
    safeAverage (batchLists fb resp [u]).llm_aided_accuracy_list = 0 ∧
    stepBatch fb resp acc [u] = acc ∧
    (∀ neg_pred neg_label pos_label perm resp2,
      (evalBatch neg_pred neg_label pos_label perm fb resp [u]).1 =
        (evalBatch neg_pred neg_label pos_label perm fb resp2 [u]).1) := by
  have hq : processQuestion (fb u) (resp u) =
      ⟨true, some relevancy_top_k, true, [], [], [], []⟩ := by
    rw [hfb]; simp [processQuestion, hconf, hmal]
  have hbl : batchLists fb resp [u] = ⟨[], [], [], []⟩ := by
    simp [batchLists, hq]
  refine ⟨hbl, by rw [hq], by rw [hq], ?_, ?_, ?_, ?_⟩
  · rw [hbl]; simp [safeAverage]
  · rw [hbl]; simp [safeAverage]
  · simp [stepBatch, hbl, safeAverage]
  · intro _ _ _ _ _
    rfl

/-- Witness for C5: feedback with confidence 0.1 < 0.26 and a malformed
response leave the running lists unchanged. -/
theorem malformed_response_dropped_witness :
    stepBatch (fun _ => some (LLMFeedback.mk (1/10) 0))
      (fun _ => LLMResponse.mk (-1) 0 0) ⟨[], [], [], []⟩ [7] = ⟨[], [], [], []⟩ :=
  (malformed_response_dropped (LLMFeedback.mk (1/10) 0) 7
    (fun _ => some (LLMFeedback.mk (1/10) 0)) (fun _ => LLMResponse.mk (-1) 0 0)
    ⟨[], [], [], []⟩ rfl (by norm_num [confidence_threshold]) rfl).2.2.2.2.2.1

/-- A batch whose every question lacks precomputed feedback accumulates
empty metric lists. -/
theorem batchLists_none (resp : ℕ → LLMResponse) (uids : List ℕ) :
    batchLists (fun _ => none) resp uids = ⟨[], [], [], []⟩ := by
  simp [batchLists, processQuestion]

/-- Such a batch leaves the running cross-batch lists unchanged. -/
theorem stepBatch_none (resp : ℕ → LLMResponse) (acc : RunningLists) (uids : List ℕ) :
    stepBatch (fun _ => none) resp acc uids = acc := by
  simp [stepBatch, batchLists_none, safeAverage]

/-- C6: every average over a possibly-empty accumulation list uses a
denominator floored at 1 — hence strictly positive, so no
division-by-zero is possible; an empty list averages to 0, empty final
aggregate lists yield vanilla_accuracy and context_accuracy of 0, and an
evaluation run in which no question has feedback returns (0, 0)
(train.py lines 324-328, 349-352). -/
theorem safe_average_never_divides_by_zero :
    (∀ xs : List ℚ, 0 < ((max 1 xs.length : ℕ) : ℚ)) ∧
    safeAverage ([] : List ℚ) = 0 ∧
    llmResults ⟨[], [], [], []⟩ = (0, 0) ∧
    (∀ (resp : ℕ → LLMResponse) (batches : List (List ℕ)),
      evaluateLLM (fun _ => none) resp batches = (0, 0)) := by
  refine ⟨?_, by simp [safeAverage], by simp [llmResults, safeAverage], ?_⟩
  · intro xs
    exact_mod_cast lt_of_lt_of_le Nat.zero_lt_one (le_max_left 1 xs.length)
  · intro resp batches
    have hfold : ∀ acc : RunningLists,
        batches.foldl (stepBatch (fun _ => none) resp) acc = acc := by
      induction batches with
      | nil => intro acc; rfl
      | cons b rest ih => intro acc; rw [List.foldl_cons, stepBatch_none]; exact ih acc
    show llmResults _ = (0, 0)
    rw [hfold]
    simp [llmResults, safeAverage]

/-- Model of the Python built-in `round` on a real value: nearest integer, ties to
even (banker rounding) — `round(frac * len(loader))` at train.py line
234 and training.py line 43. -/
def pyRound (q : ℚ) : ℤ :=
  if q - ⌊q⌋ < 1/2 then ⌊q⌋
  else if 1/2 < q - ⌊q⌋ then ⌊q⌋ + 1
  else if ⌊q⌋ % 2 = 0 then ⌊q⌋ else ⌊q⌋ + 1

/-- Iteration scheme of the evaluate loop (train.py lines 237, 336-337;
training.py lines 45-62): each iteration processes its batch uncondi-
tionally, then breaks when `batch_num >= num_batches`.  Returns the
batches actually processed, `n` being the current `batch_num`. -/
def evalLoopBatches {α : Type} (num_batches : ℤ) : List α → ℤ → List α
  | [], _ => []
  | b :: rest, n =>
    b :: (if num_batches ≤ n then [] else evalLoopBatches num_batches rest (n + 1))

/-- The batches `evaluate` processes for a given `frac`:
`num_batches = round(frac * len(loader))`, iteration starting at
`batch_num = 1`. -/
def processedBatches {α : Type} (frac : ℚ) (loader : List α) : List α :=
  evalLoopBatches (pyRound (frac * loader.length)) loader 1

/-- Count and initial-segment behaviour of the break-after-body loop. -/
theorem evalLoopBatches_spec {α : Type} (nb : ℤ) :
    ∀ (bs : List α) (n : ℤ),
      ((evalLoopBatches nb bs n).length =
        min bs.length (max 1 (nb - n + 1)).toNat) ∧
      ∃ rest, evalLoopBatches nb bs n ++ rest = bs
  | [], n => ⟨by simp [evalLoopBatches], ⟨[], rfl⟩⟩
  | b :: bs, n => by
    obtain ⟨ihlen, r, ihpre⟩ := evalLoopBatches_spec nb bs (n + 1)
    by_cases h : nb ≤ n
    · refine ⟨?_, ⟨bs, ?_⟩⟩
      · simp only [evalLoopBatches, if_pos h, List.length_cons, List.length_nil]
        omega
      · simp [evalLoopBatches, if_pos h]
    · refine ⟨?_, ⟨r, ?_⟩⟩
      · simp only [evalLoopBatches, if_neg h, List.length_cons]
        rw [ihlen]
        omega
      · simp only [evalLoopBatches, if_neg h]
        rw [List.cons_append, ihpre]

/-- C8 counterexample: a loader with 2 batches and `frac = 1/4`:
`round(0.25 * 2) = round(0.5) = 0` under the Python ties-to-even rounding
(0.5 is exactly representable in binary floating point, so the Python
computation agrees), yet the loop processes 1 batch — the break check
follows the loop body — contradicting "processes exactly
round(frac * num_batches) batches". -/
theorem eval_loop_processes_one_when_round_zero :
    pyRound ((1/4 : ℚ) * (([0, 1] : List ℕ).length : ℚ)) = 0 ∧
    (processedBatches (1/4) ([0, 1] : List ℕ)).length = 1 := by
  have h : pyRound ((1/4 : ℚ) * (([0, 1] : List ℕ).length : ℚ)) = 0 := by
    norm_num [pyRound]
  refine ⟨h, ?_⟩
  simp only [processedBatches, h]
  simp [evalLoopBatches]

/-- C8 (amended): for every split and fraction, the evaluation loop
processes `min(len, max(1, round(frac * len)))` batches — exactly
`round(frac * len)` whenever that value lies in `[1, len]` — and the
processed batches form an initial segment of the loader.  The boundary
is inclusive (the batch that reaches the limit is processed before the
loop stops), and because the limit check follows the body, a non-empty
loader always has at least its first batch processed even when the
rounded count is zero or negative. -/
theorem eval_loop_batch_count {α : Type} (frac : ℚ) (loader : List α) :
    ((processedBatches frac loader).length =
      min loader.length (max 1 (pyRound (frac * loader.length))).toNat) ∧
    ∃ rest, processedBatches frac loader ++ rest = loader := by
  obtain ⟨hlen, hpre⟩ :=
    evalLoopBatches_spec (pyRound (frac * loader.length)) loader 1
  refine ⟨?_, hpre⟩
  simp only [processedBatches]
  rw [hlen, Int.sub_add_cancel]

/-- Model of `copy.deepcopy(medical_hgt.state_dict())` (train.py line 179,
training.py line 206): the live parameter store is read out at snapshot
time, producing a value that shares no state with the model. -/
def deepcopyStateDict (params : ℕ → ℤ) (n : ℕ) : List ℤ :=
  (List.range n).map params

/-- A later training/optimizer step mutating the live parameter store at
index `i`. -/
def paramUpdate (params : ℕ → ℤ) (i : ℕ) (v : ℤ) : ℕ → ℤ :=
  fun j => if j = i then v else params j

/-- The epoch loop (train.py lines 70-177; training.py lines 143-204):
each epoch builds an EpochResult from the current training state and
appends it to the history of the run (`epoch_results.append(epoch_result)`,
train.py line 174); records are only created and appended. -/
def runEpochs {σ : Type} (step : σ → EpochResult × σ) : ℕ → σ → List EpochResult × σ
  | 0, s => ([], s)
  | k + 1, s =>
    ((step s).1 :: (runEpochs step k (step s).2).1, (runEpochs step k (step s).2).2)

/-- train.py line 190 / training.py line 212: the ModelResult is
assembled with the deep-copied snapshot of the parameter store. -/
def mkModelResult (start_time end_time : ℤ) (ers : List EpochResult)
    (params : ℕ → ℤ) (n : ℕ) (test_acc : ℚ) : ModelResult :=
  ⟨start_time, end_time, ers, deepcopyStateDict params n, test_acc⟩

/-- The epoch history is append-only: the history of a shorter run is an
initial segment of the history of any longer run from the same state. -/
theorem runEpochs_append_only {σ : Type} (step : σ → EpochResult × σ) :
    ∀ (k j : ℕ) (s : σ),
      ∃ rest, (runEpochs step k s).1 ++ rest = (runEpochs step (k + j) s).1
  | 0, j, s => ⟨(runEpochs step j s).1, by simp [runEpochs]⟩
  | k + 1, j, s => by
    obtain ⟨rest, hr⟩ := runEpochs_append_only step k j (step s).2
    refine ⟨rest, ?_⟩
    have hkj : k + 1 + j = (k + j) + 1 := by omega
    rw [hkj]
    show (step s).1 :: ((runEpochs step k (step s).2).1 ++ rest) = _
    rw [hr]
    rfl

/-- C9: epoch results accumulate append-only (a constructed EpochResult
is never altered by later epochs: the earlier history is an initial
segment of the later one), the ModelResult stores exactly the
deep-copied parameter snapshot taken at assembly time, and a subsequent
mutation of the live parameter store leaves the stored snapshot with the
old values — the snapshot is a value copy, not a live reference. -/
theorem results_immutable_snapshot_value_copy
    {σ : Type} (step : σ → EpochResult × σ) (k j : ℕ) (s : σ)
    (st et : ℤ) (ers : List EpochResult) (params : ℕ → ℤ) (n : ℕ) (ta : ℚ)
    (i : ℕ) (v : ℤ) (hi : i < n) (hv : v ≠ params i) :
    (∃ rest, (runEpochs step k s).1 ++ rest = (runEpochs step (k + j) s).1) ∧
    (mkModelResult st et ers params n ta).state_dict = deepcopyStateDict params n ∧
    (mkModelResult st et ers params n ta).state_dict ≠
      deepcopyStateDict (paramUpdate params i v) n := by
  refine ⟨runEpochs_append_only step k j s, rfl, ?_⟩
  intro hcontra
  have h := congrArg (fun l => l[i]?) hcontra
  simp only [mkModelResult, deepcopyStateDict, List.getElem?_map] at h
  rw [List.getElem?_range hi] at h
  simp only [Option.map_some'] at h
  rw [paramUpdate] at h
  simp only [if_pos rfl, Option.some.injEq] at h
  exact hv h.symm

/-- Witness for C9 with one parameter, updated from 0 to 1 after the
snapshot, and a 1-epoch history extended to 2 epochs. -/
theorem results_immutable_snapshot_value_copy_witness :
    (∃ rest, (runEpochs (fun s : ℕ => (EpochResult.mk 1 0 0 0 0 0, s)) 1 0).1 ++ rest =
      (runEpochs (fun s : ℕ => (EpochResult.mk 1 0 0 0 0 0, s)) (1 + 1) 0).1) ∧
    (mkModelResult 0 0 [] (fun _ => 0) 1 0).state_dict =
      deepcopyStateDict (fun _ => 0) 1 ∧
    (mkModelResult 0 0 [] (fun _ => 0) 1 0).state_dict ≠
      deepcopyStateDict (paramUpdate (fun _ => 0) 0 1) 1 :=
  results_immutable_snapshot_value_copy (fun s : ℕ => (EpochResult.mk 1 0 0 0 0 0, s))
    1 1 0 0 0 [] (fun _ => 0) 1 0 0 1 (by decide) (by decide)

/-- The tail of `train` (train.py lines 179-190): after all epochs, the
test split is evaluated via `evaluate`, which at line 182 is passed
`val_llm_feedbacks_dict` — the VALIDATION feedback mapping; the
signature of `train` (lines 14-26) has no test-specific feedback dict
at all — and the resulting LLM accuracy dict is stored in the
ModelResult.  Only the LLM-metrics component is modelled; `frac`
defaults to 1.0. -/
def trainTestLLMAcc (split_loaders : String → List (List ℕ))
    (train_llm_feedbacks_dict val_llm_feedbacks_dict : ℕ → Option LLMFeedback)
    (resp : ℕ → LLMResponse) : ℚ × ℚ :=
  evaluateLLM val_llm_feedbacks_dict resp (processedBatches 1 (split_loaders "test"))

/-- C10: the test-set LLM accuracy dict stored by the training loop is
computed against the validation-split feedback mapping — it equals the
evaluation of the test batches under `val_llm_feedbacks_dict`, is
independent of the train feedback mapping, and concretely differs from
what a test-specific mapping would give: with validation feedback for
question 0 (confidence 0.5) but an empty test-specific mapping, the
stored result is (1, 1) while the test-specific mapping yields (0, 0). -/
theorem test_eval_uses_val_feedback :
    (∀ (split_loaders : String → List (List ℕ))
       (train_fb val_fb : ℕ → Option LLMFeedback) (resp : ℕ → LLMResponse),
      trainTestLLMAcc split_loaders train_fb val_fb resp =
        evaluateLLM val_fb resp (processedBatches 1 (split_loaders "test")) ∧
      ∀ train_fb2 : ℕ → Option LLMFeedback,
        trainTestLLMAcc split_loaders train_fb val_fb resp =
          trainTestLLMAcc split_loaders train_fb2 val_fb resp) ∧
    trainTestLLMAcc (fun _ => [[0]]) (fun _ => none)
      (fun _ => some (LLMFeedback.mk (1/2) 1)) (fun _ => LLMResponse.mk 0 0 0) = (1, 1) ∧
    evaluateLLM (fun _ => none) (fun _ => LLMResponse.mk 0 0 0)
      (processedBatches 1 [[0]]) = (0, 0) := by
  have hpb : processedBatches 1 ([[0]] : List (List ℕ)) = [[0]] := by
    norm_num [processedBatches, pyRound, evalLoopBatches]
  refine ⟨fun sl tfb vfb r => ⟨rfl, fun _ => rfl⟩, ?_, ?_⟩
  · show evaluateLLM _ _ (processedBatches 1 [[0]]) = (1, 1)
    rw [hpb]
    norm_num [evaluateLLM, stepBatch, batchLists, processQuestion,
      confidence_threshold, llmResults, safeAverage]
  · rw [hpb]
    show llmResults _ = (0, 0)
    rw [List.foldl_cons, stepBatch_none, List.foldl_nil]
    simp [llmResults, safeAverage]
